import Mathlib

/-!
Shallow embedding of the companyprospect-mcp query-resolution pipeline
(src/api_modules/lookups.py, titles.py, lookalikes.py, query_parser.py).

Modelling conventions:
* Python JSON scalars appearing in result rows are modelled by `PyVal`
  (ints, strings, rationals standing in for floats, and None); Python
  truthiness is `PyVal.truthy`.
* Each HTTP call site is modelled by a caller-supplied pure function from
  the request's query variables to an `HttpOutcome`: either a response
  with a status code, a parsed JSON body and a raw text, or a raised
  exception (timeout / network error).  Credentials and endpoint URLs are
  passed through unchanged by the source and are elided.
* Concurrency: `asyncio.gather` starts one independent task per term and
  returns their results in task order; since every task's outcome is a
  pure function of its term, completion order cannot influence any value,
  and `gather` is modelled as an in-order effectful map over `Except`
  (an exception in any task propagates, as with return_exceptions=False).
* Functions that issue HTTP requests also return the list of query
  variables they sent, so that claims about request contents are statable.
* Fallible Python code (uncaught exceptions) is modelled with
  `Except String`.
-/

set_option maxRecDepth 16384

namespace CompanyProspect

/-- Decidable equality on `Except`, so that concrete runs can be checked
by `decide`. -/
instance exceptDecidableEq {ε α : Type} [DecidableEq ε] [DecidableEq α] :
    DecidableEq (Except ε α) := fun x y =>
  match x, y with
  | .ok a, .ok b =>
    if h : a = b then isTrue (by rw [h])
    else isFalse (by intro hc; cases hc; exact h rfl)
  | .error a, .error b =>
    if h : a = b then isTrue (by rw [h])
    else isFalse (by intro hc; cases hc; exact h rfl)
  | .ok _, .error _ => isFalse (by intro hc; cases hc)
  | .error _, .ok _ => isFalse (by intro hc; cases hc)

/-- A Python scalar value as it appears in JSON rows. -/
inductive PyVal where
  | vInt (n : Int)
  | vStr (s : String)
  | vRat (q : Rat)
  | vNone
  deriving DecidableEq, Repr

/-- Python truthiness for the scalars in `PyVal`. -/
def PyVal.truthy : PyVal → Bool
  | .vInt n => n != 0
  | .vStr s => s != ""
  | .vRat q => q != 0
  | .vNone => false

/-- One result row from a ClickHouse endpoint (JSONCompact data row). -/
abbrev Row := List PyVal

/-- `row[0] if row else None` — the primary id of a candidate row. -/
def firstId : Row → PyVal
  | [] => .vNone
  | x :: _ => x

/-- Parsed JSON body of a ClickHouse response: `meta` column names and
`data` rows. -/
structure RespBody where
  meta : List String
  data : List Row
  deriving DecidableEq, Repr

/-- Outcome of one `httpx` POST: a response (status, parsed body, raw
text) or a raised exception (timeout / network error). -/
inductive HttpOutcome where
  | resp (status : Nat) (body : RespBody) (text : String)
  | exn (msg : String)

/-- Whether the HTTP call raises instead of returning a response. -/
def httpRaises : HttpOutcome → Bool
  | .exn _ => true
  | .resp _ _ _ => false

/-- The f-string `f'Status \x7bresponse.status_code\x7d'`. -/
def statusMsg (s : Nat) : String := "Status " ++ toString s

/-- Python list slicing `xs[:k]` for a possibly negative `k`. -/
def pySliceTake (xs : List Row) (k : Int) : List Row :=
  if 0 ≤ k then xs.take k.toNat
  else xs.take (xs.length - (-k).toNat)

/-- Per-term result dict of `lookup` / `lookup_title`: either a
columns/rows table or an error dict `{'query','error'[,'detail']}`
(the `detail` key is present only in the embedding-failure dicts of
`titles.py`). -/
inductive LookupResult where
  | table (columns : List String) (rows : List Row)
  | err (query : String) (msg : String) (detail : Option String)
  deriving DecidableEq, Repr

/-- `item.get('result', \x7b\x7d).get('rows', [])`: the rows of a result,
empty for error dicts. -/
def LookupResult.rowsOf : LookupResult → List Row
  | .table _ rows => rows
  | .err _ _ _ => []

/-- One element of the `lookup_many` output list:
`\x7b'query': q, 'result': r\x7d`. -/
structure Entry where
  query : String
  result : LookupResult
  deriving DecidableEq, Repr

/-- queryVariables of the lexical lookup endpoint. -/
structure LookupVars where
  query : String
  max_log_hc : Rat
  size_weight : Rat
  limit : Int
  deriving DecidableEq, Repr

/-- The query variables `lookup` sends for a (non-empty) term. -/
def lookupVarsFor (query : String) (limit : Int) (size_weight : Rat) : LookupVars :=
  { query := query, max_log_hc := 6, size_weight := size_weight, limit := min limit 100 }

/-- `lookups.lookup`: single lexical lookup.  Returns the outcome (an
uncaught httpx exception is `Except.error`) together with the query
variables of the requests it issued. -/
def lookup (backend : LookupVars → HttpOutcome) (query : String)
    (limit : Int) (size_weight : Rat) :
    Except String LookupResult × List LookupVars :=
  if query = "" then (.ok (.table [] []), [])
  else
    let vars := lookupVarsFor query limit size_weight
    match backend vars with
    | .exn m => (.error m, [vars])
    | .resp s body _ =>
      if s = 200 then
        (.ok (.table body.meta (pySliceTake body.data (min limit 100))), [vars])
      else (.ok (.err query (statusMsg s) none), [vars])

/-- `asyncio.gather` over per-term tasks: results in task (input) order;
a raised exception propagates (return_exceptions defaults to False). -/
def gather {α : Type} (f : String → Except String α) :
    List String → Except String (List α)
  | [] => .ok []
  | q :: rest => do
    let r ← f q
    let rs ← gather f rest
    pure (r :: rs)

/-- The inner row loop of the dedup merge: threads the `seen_ids` set
through one term's candidate rows, keeping a row only when its first
column is truthy and unseen.  Returns the updated seen set and the kept
rows. -/
def dedupeRows (seen : List PyVal) : List Row → List PyVal × List Row
  | [] => (seen, [])
  | row :: rest =>
    let comp_id := firstId row
    if comp_id.truthy && !(seen.contains comp_id) then
      let out := dedupeRows (comp_id :: seen) rest
      (out.1, row :: out.2)
    else dedupeRows seen rest

/-- The dedup merge pass of `lookup_many` / `lookup_title_many` (the two
loops are textually identical in the source): walks the zipped
(query, result) pairs in input order with a single shared seen set;
error dicts pass through unchanged. -/
def mergeDedupeAux (seen : List PyVal) :
    List (String × LookupResult) → List Entry
  | [] => []
  | p :: rest =>
    match p.2 with
    | .table cols rows =>
      let out := dedupeRows seen rows
      { query := p.1, result := .table cols out.2 } :: mergeDedupeAux out.1 rest
    | .err a b c =>
      { query := p.1, result := .err a b c } :: mergeDedupeAux seen rest

/-- The shared body of `lookup_many` and `lookup_title_many` (the source
repeats it verbatim in lookups.py and titles.py): empty input short-cut,
fan-out via `gather`, then either the dedup merge or plain pairing. -/
def fanout (f : String → Except String LookupResult) (queries : List String)
    (dedupe : Bool) : Except String (List Entry) :=
  if queries.isEmpty then .ok []
  else do
    let results ← gather f queries
    if dedupe then
      pure (mergeDedupeAux [] (queries.zip results))
    else
      pure ((queries.zip results).map fun p => { query := p.1, result := p.2 })

/-- `lookups.lookup_many`: concurrent fan-out plus optional dedup merge. -/
def lookup_many (backend : LookupVars → HttpOutcome) (queries : List String)
    (limit : Int) (size_weight : Rat) (dedupe : Bool) :
    Except String (List Entry) :=
  fanout (fun q => (lookup backend q limit size_weight).1) queries dedupe

/-! ### titles.py -/

/-- Behaviour of one `embed_fn([query])[0].tolist()` call run in the
thread pool: it either returns a vector after some wall-clock duration
(in seconds) or raises. -/
inductive EmbedBehavior where
  | returns (duration : Rat) (vec : List Rat)
  | raises (msg : String)

/-- Result of `asyncio.wait_for(..., timeout)` around the embedding. -/
inductive EmbedResult where
  | ok (vec : List Rat)
  | timedOut
  | failed (msg : String)

/-- `asyncio.wait_for` with the given timeout: delivers the value when it
arrives within the bound, raises `TimeoutError` otherwise; an exception
from the task surfaces as a failure (caught by the `except Exception`
arm in the source). -/
def awaitWithTimeout (timeout : Rat) (b : EmbedBehavior) : EmbedResult :=
  match b with
  | .returns d v => if d ≤ timeout then .ok v else .timedOut
  | .raises m => .failed m

/-- queryVariables of the title-lookup endpoint. -/
structure TitleVars where
  query : List Rat
  limit : Int
  deriving DecidableEq, Repr

/-- The query variables `lookup_title` sends for an embedded term. -/
def titleVarsFor (vec : List Rat) (limit : Int) : TitleVars :=
  { query := vec, limit := min limit 100 }

/-- `titles.lookup_title`: embedding (120 s timeout, failures caught and
turned into error dicts with a `detail` field) followed by the HTTP
lookup (whose exceptions are not caught). -/
def lookup_title (embed : String → EmbedBehavior)
    (backend : TitleVars → HttpOutcome) (query : String) (limit : Int) :
    Except String LookupResult × List TitleVars :=
  if query = "" then (.ok (.table [] []), [])
  else
    match awaitWithTimeout 120 (embed query) with
    | .timedOut =>
        (.ok (.err query ("Embedding timeout")
          (some ("Embedding generation timed out after 120 seconds"))), [])
    | .failed m =>
        (.ok (.err query ("Embedding failed") (some (m.take 500))), [])
    | .ok vec =>
        let vars := titleVarsFor vec limit
        match backend vars with
        | .exn m => (.error m, [vars])
        | .resp s body _ =>
          if s = 200 then
            (.ok (.table body.meta (pySliceTake body.data (min limit 100))), [vars])
          else (.ok (.err query (statusMsg s) none), [vars])

/-- `titles.lookup_title_many`: concurrent fan-out plus the same dedup
merge as `lookup_many` (the two merge loops are textually identical in
the source, so they share `mergeDedupeAux` here). -/
def lookup_title_many (embed : String → EmbedBehavior)
    (backend : TitleVars → HttpOutcome) (queries : List String)
    (limit : Int) (dedupe : Bool) : Except String (List Entry) :=
  fanout (fun q => (lookup_title embed backend q limit).1) queries dedupe

/-! ### lookalikes.py -/

/-- queryVariables of the lookalike-from-ids endpoint. -/
structure LookalikeIdsVars where
  company_ids : List Int
  max_log_hc : Rat
  size_weight : Rat
  filter_hc : Int
  filter_cc2 : List String
  limit : Int
  deriving DecidableEq, Repr

/-- Result dict of `lookalike_from_ids`: a table, or the error dict
`\x7b'company_ids','error','detail','query_variables'\x7d`. -/
inductive LookalikeIdsResult where
  | table (columns : List String) (rows : List Row)
  | failure (company_ids : List Int) (error : String) (detail : String)
      (query_variables : LookalikeIdsVars)
  deriving DecidableEq, Repr

/-- `response.text[:500] if response.text else 'No response body'`. -/
def truncDetail (text : String) : String :=
  if text = "" then "No response body" else text.take 500

/-- The query variables `lookalike_from_ids` builds: explicit defaults
for the optional filters (Python truthiness for `filter_cc2`), clamped
limit. -/
def lookalikeIdsVarsFor (company_ids : List Int) (filter_hc : Option Int)
    (filter_cc2 : Option (List String)) (size_weight : Rat) (limit : Int) :
    LookalikeIdsVars :=
  { company_ids := company_ids
    max_log_hc := 6
    size_weight := size_weight
    filter_hc := match filter_hc with | some h => h | none => 0
    filter_cc2 := match filter_cc2 with
      | some l => if l.isEmpty then [] else l
      | none => []
    limit := min limit 1000 }

/-- `lookalikes.lookalike_from_ids`: builds query variables with explicit
defaults for the optional filters (Python truthiness for `filter_cc2`),
issues one POST (exceptions uncaught), caps returned rows at the clamped
limit. -/
def lookalike_from_ids (backend : LookalikeIdsVars → HttpOutcome)
    (company_ids : List Int) (filter_hc : Option Int)
    (filter_cc2 : Option (List String)) (size_weight : Rat) (limit : Int) :
    Except String LookalikeIdsResult × List LookalikeIdsVars :=
  if company_ids.isEmpty then (.ok (.table [] []), [])
  else
    let query_variables := lookalikeIdsVarsFor company_ids filter_hc filter_cc2
      size_weight limit
    match backend query_variables with
    | .exn m => (.error m, [query_variables])
    | .resp s body text =>
      if s = 200 then
        (.ok (.table body.meta (pySliceTake body.data (min limit 1000))),
          [query_variables])
      else
        (.ok (.failure company_ids (statusMsg s) (truncDetail text)
          query_variables), [query_variables])

/-- queryVariables of the lookalike-from-term endpoint. -/
structure LookalikeTermVars where
  query : List Rat
  max_log_hc : Rat
  size_weight : Rat
  limit : Int
  deriving DecidableEq, Repr

/-- The query variables `lookalike_from_term` sends for an embedded
term. -/
def lookalikeTermVarsFor (vec : List Rat) (size_weight : Rat) (limit : Int) :
    LookalikeTermVars :=
  { query := vec, max_log_hc := 6, size_weight := size_weight
    limit := min limit 1000 }

/-- Result dict of `lookalike_from_term`: a table, or the error dict
`\x7b'query','error','detail'\x7d`. -/
inductive LookalikeTermResult where
  | table (columns : List String) (rows : List Row)
  | failure (query : String) (error : String) (detail : String)
  deriving DecidableEq, Repr

/-- `lookalikes.lookalike_from_term`: embedding bounded by the 120 s
`asyncio.wait_for`, with timeout and any embedding exception converted
to structured error dicts; then the vector lookup (HTTP exceptions
uncaught). -/
def lookalike_from_term (embed : String → EmbedBehavior)
    (backend : LookalikeTermVars → HttpOutcome) (query : String)
    (size_weight : Rat) (limit : Int) :
    Except String LookalikeTermResult × List LookalikeTermVars :=
  if query = "" then (.ok (.table [] []), [])
  else
    match awaitWithTimeout 120 (embed query) with
    | .timedOut =>
        (.ok (.failure query ("Embedding timeout")
          ("Embedding generation timed out after 120 seconds")), [])
    | .failed m =>
        (.ok (.failure query ("Embedding failed") (m.take 500)), [])
    | .ok vec =>
        let vars := lookalikeTermVarsFor vec size_weight limit
        match backend vars with
        | .exn m => (.error m, [vars])
        | .resp s body text =>
          if s = 200 then
            (.ok (.table body.meta (pySliceTake body.data (min limit 1000))), [vars])
          else
            (.ok (.failure query (statusMsg s) (truncDetail text)), [vars])

/-! ### query_parser.py

The extraction call to the OpenAI client is modelled by a
`CompletionOutcome`: either its content parsed as the JSON object the
system prompt requests (`json.loads` succeeded) or its raw non-JSON
content.  The giant SYSTEM_PROMPT string only shapes that content and is
not reproduced; VALIDATION_PROMPT is reproduced below because it is a
module-level constant of the source (it has no uses there).
`parse_query` returns its outcome paired with the number of completion
calls it performed: the source constructs the client and calls
`client.chat.completions.create` exactly once, before any resolution
step, so the count is 1 on every path. -/

/-- The `VALIDATION_PROMPT` template constant of query_parser.py
(defined in the source but never referenced by any function). -/
def VALIDATION_PROMPT : String :=
  "You are validating company search results. Given the original query context and search results, select the correct company.\n\nOriginal query: {query}\nIndustry context: {industry}\nSearch term: \"{search_term}\"\n\nSearch results (comp_id, name, headcount, country, industry):\n{candidates}\n\nSelect the comp_id that best matches the intended company based on context.\nIf none match, return null.\n\nOutput JSON only: \x7b\x7b\"comp_id\": <id or null>, \"confidence\": \"high\"|\"medium\"|\"low\"\x7d\x7d"

/-- The fields of the JSON object produced by the extraction completion
(step 2 of `parse_query`); `none` models an absent key. -/
structure ParsedJson where
  industry_summary : Option String := none
  competitor_names : Option (List String) := none
  suggested_companies : Option (List String) := none
  explicit_comp_names_curr : Option (List String) := none
  explicit_comp_names_past : Option (List String) := none
  explicit_comp_names_any : Option (List String) := none
  profile_industry_experience : Option String := none
  headline_skills_explicit : Option (List String) := none
  headline_skills_explicit_expanded : Option (List String) := none
  filt_lead_type : Option (List String) := none
  filt_comp_loc_cc2 : Option (List String) := none
  filt_comp_loc_city : Option (List String) := none
  filt_comp_loc_region : Option (List String) := none
  filt_comp_hc : Option (List Int) := none
  filt_emp_title : Option (List String) := none
  filt_emp_cc2_list : Option (List String) := none
  deriving DecidableEq, Repr

/-- Output of the one completion call made by `parse_query`. -/
inductive CompletionOutcome where
  | json (parsed : ParsedJson)
  | notJson (raw : String)

/-- The result dict `parse_query` builds (keys absent from the dict are
`none`). -/
structure ParseResult where
  industry_summary : String
  competitor_parsed_list : List PyVal := []
  competitor_suggested_list : List PyVal := []
  explicit_comp_id_list_curr : List PyVal := []
  explicit_comp_id_list_past : List PyVal := []
  explicit_comp_id_list_any : List PyVal := []
  filt_lead_type : Option (List String) := none
  filt_comp_loc_cc2 : Option (List String) := none
  filt_comp_loc_city : Option (List String) := none
  filt_comp_loc_region : Option (List String) := none
  filt_comp_hc : Option (List Int) := none
  filt_emp_title : Option (List String) := none
  filt_emp_cc2_list : Option (List String) := none
  profile_industry_experience : Option String := none
  headline_skills_explicit : Option (List String) := none
  headline_skills_explicit_expanded : Option (List String) := none
  competitor_names : Option (List String) := none
  suggested_companies : Option (List String) := none
  explicit_comp_names_curr : Option (List String) := none
  explicit_comp_names_past : Option (List String) := none
  explicit_comp_names_any : Option (List String) := none
  filt_emp_title_ids : Option (List PyVal) := none
  deriving DecidableEq, Repr

/-- How `parse_query` terminates: an uncaught exception, the
`\x7b'error','raw'\x7d` dict for unparseable completion output, or the
result dict. -/
inductive PQOut where
  | raised (msg : String)
  | errorResult (error : String) (raw : String)
  | ok (r : ParseResult)
  deriving DecidableEq, Repr

/-- `if parsed.get(key):` for a string-valued key (truthiness). -/
def truthyStrOpt : Option String → Option String
  | some s => if s = "" then none else some s
  | none => none

/-- `if parsed.get(key):` for a list-valued key (truthiness). -/
def truthyListOpt : Option (List String) → Option (List String)
  | some l => if l.isEmpty then none else some l
  | none => none

/-- Step 3 of `parse_query`: the result dict before any lookups. -/
def buildBase (parsed : ParsedJson) : ParseResult :=
  { industry_summary := parsed.industry_summary.getD ""
    filt_lead_type := parsed.filt_lead_type
    filt_comp_loc_cc2 := parsed.filt_comp_loc_cc2
    filt_comp_loc_city := parsed.filt_comp_loc_city
    filt_comp_loc_region := parsed.filt_comp_loc_region
    filt_comp_hc := parsed.filt_comp_hc
    filt_emp_title := parsed.filt_emp_title
    filt_emp_cc2_list := parsed.filt_emp_cc2_list
    profile_industry_experience := truthyStrOpt parsed.profile_industry_experience
    headline_skills_explicit := truthyListOpt parsed.headline_skills_explicit
    headline_skills_explicit_expanded :=
      truthyListOpt parsed.headline_skills_explicit_expanded }

/-- `_extract_comp_ids`: appends `rows[0][0]` for every item whose result
has a non-empty row list; an empty first row makes `rows[0][0]` raise
IndexError. -/
def extract_comp_ids : List Entry → Except String (List PyVal)
  | [] => .ok []
  | item :: rest =>
    match item.result.rowsOf with
    | [] => extract_comp_ids rest
    | row :: _ =>
      match row with
      | [] => .error ("IndexError")
      | x :: _ => do
        let out ← extract_comp_ids rest
        pure (x :: out)

/-- The loop of `_extract_title_ids`, threading the `seen_ids` set. -/
def extract_title_ids_go (seen : List PyVal) :
    List Entry → Except String (List PyVal)
  | [] => .ok []
  | item :: rest =>
    match item.result.rowsOf with
    | [] => extract_title_ids_go seen rest
    | row :: _ =>
      match row with
      | [] => .error ("IndexError")
      | x :: _ =>
        if seen.contains x then extract_title_ids_go seen rest
        else do
          let out ← extract_title_ids_go (x :: seen) rest
          pure (x :: out)

/-- `_extract_title_ids`: top match per query, deduplicated by title id. -/
def extract_title_ids (lookup_results : List Entry) : Except String (List PyVal) :=
  extract_title_ids_go [] lookup_results

/-- One of the five identical lookup blocks of step 4 of `parse_query`:
`if names: result[field] = _extract_comp_ids(lookup_many_fn(names))`. -/
def lookupStep (f : List String → List Entry) (names : List String)
    (setter : List PyVal → ParseResult → ParseResult) (cur : ParseResult) :
    Except String ParseResult :=
  if names.isEmpty then .ok cur
  else do
    let ids ← extract_comp_ids (f names)
    .ok (setter ids cur)

/-- Step 4 of `parse_query` when a lookup function is supplied: the five
name groups are resolved in source order. -/
def applyLookups (f : List String → List Entry) (parsed : ParsedJson)
    (base : ParseResult) : Except String ParseResult := do
  let r1 ← lookupStep f (parsed.competitor_names.getD [])
    (fun ids r => { r with competitor_parsed_list := ids }) base
  let r2 ← lookupStep f (parsed.suggested_companies.getD [])
    (fun ids r => { r with competitor_suggested_list := ids }) r1
  let r3 ← lookupStep f (parsed.explicit_comp_names_curr.getD [])
    (fun ids r => { r with explicit_comp_id_list_curr := ids }) r2
  let r4 ← lookupStep f (parsed.explicit_comp_names_past.getD [])
    (fun ids r => { r with explicit_comp_id_list_past := ids }) r3
  lookupStep f (parsed.explicit_comp_names_any.getD [])
    (fun ids r => { r with explicit_comp_id_list_any := ids }) r4

/-- Step 4 of `parse_query` when no lookup function is supplied: the raw
name lists are copied into the result. -/
def copyNames (parsed : ParsedJson) (base : ParseResult) : ParseResult :=
  { base with
    competitor_names := some (parsed.competitor_names.getD [])
    suggested_companies := some (parsed.suggested_companies.getD [])
    explicit_comp_names_curr := some (parsed.explicit_comp_names_curr.getD [])
    explicit_comp_names_past := some (parsed.explicit_comp_names_past.getD [])
    explicit_comp_names_any := some (parsed.explicit_comp_names_any.getD []) }

/-- Step 5 of `parse_query`: title lookups when employee leads are
requested, title terms are present and a title lookup function exists. -/
def applyTitleLookups (tf : Option (List String → List Entry))
    (res : ParseResult) : Except String ParseResult :=
  let lead_type := res.filt_lead_type.getD []
  let emp_titles := res.filt_emp_title.getD []
  match tf with
  | some f =>
    if lead_type.contains "employee" && !emp_titles.isEmpty then do
      let ids ← extract_title_ids (f emp_titles)
      .ok { res with filt_emp_title_ids := some ids }
    else .ok res
  | none => .ok res

/-- Steps 3-5 of `parse_query` once the completion output parsed as
JSON: build the base result, resolve the five company-name groups, then
the title lookups. -/
def parse_query_core (parsed : ParsedJson)
    (lookup_many_fn : Option (List String → List Entry))
    (lookup_title_many_fn : Option (List String → List Entry)) :
    Except String ParseResult :=
  let base := buildBase parsed
  let afterLookups : Except String ParseResult :=
    match lookup_many_fn with
    | some f => applyLookups f parsed base
    | none => .ok (copyNames parsed base)
  do
    let res ← afterLookups
    applyTitleLookups lookup_title_many_fn res

/-- `query_parser.parse_query`, with the extraction completion already
classified by `CompletionOutcome`.  The second component counts the
completion calls performed (the source calls the client exactly once,
before the JSON check, and never afterwards). -/
def parse_query (llm : CompletionOutcome)
    (lookup_many_fn : Option (List String → List Entry))
    (lookup_title_many_fn : Option (List String → List Entry)) :
    PQOut × Nat :=
  match llm with
  | .notJson raw => (.errorResult ("Failed to parse LLM response") raw, 1)
  | .json parsed =>
    match parse_query_core parsed lookup_many_fn lookup_title_many_fn with
    | .ok r => (.ok r, 1)
    | .error m => (.raised m, 1)

/-! ### Derived notions used by the statements -/

/-- All candidate rows of a batch output, concatenated in entry order. -/
def flatRows (es : List Entry) : List Row :=
  (es.map fun e => e.result.rowsOf).flatten

/-- All candidate rows of zipped (query, result) pairs. -/
def flatRowsP (pairs : List (String × LookupResult)) : List Row :=
  (pairs.map fun p => p.2.rowsOf).flatten

/-- The specification's merge pass, written from its words: walking all
candidate rows in order, a row is kept only if its primary id is truthy
and was not already emitted (first occurrence wins). -/
def firstOccurrenceFilter (seen : List PyVal) : List Row → List Row
  | [] => []
  | row :: rest =>
    if (firstId row).truthy && !(seen.contains (firstId row)) then
      row :: firstOccurrenceFilter (firstId row :: seen) rest
    else firstOccurrenceFilter seen rest

/-- Number of rows in a lookup-style outcome (0 for error dicts and for
raised exceptions). -/
def rowCountL : Except String LookupResult → Nat
  | .ok (.table _ rows) => rows.length
  | .ok (.err _ _ _) => 0
  | .error _ => 0

/-- Number of rows in a `lookalike_from_ids` outcome. -/
def rowCountI : Except String LookalikeIdsResult → Nat
  | .ok (.table _ rows) => rows.length
  | .ok (.failure _ _ _ _) => 0
  | .error _ => 0

/-- Number of rows in a `lookalike_from_term` outcome. -/
def rowCountT : Except String LookalikeTermResult → Nat
  | .ok (.table _ rows) => rows.length
  | .ok (.failure _ _ _) => 0
  | .error _ => 0

/-- The top candidate id an extraction step reads from one entry
(`rows[0][0]`), when both the row list and its first row are non-empty. -/
def topId (e : Entry) : Option PyVal :=
  e.result.rowsOf.head?.bind List.head?

/-! ### Lemmas about the dedup merge -/

theorem dedupeRows_fst (rows : List Row) : ∀ seen : List PyVal,
    (dedupeRows seen rows).1 =
      ((dedupeRows seen rows).2.map firstId).reverse ++ seen := by
  induction rows with
  | nil => intro seen; simp [dedupeRows]
  | cons row rest ih =>
    intro seen
    simp only [dedupeRows]
    by_cases h : ((firstId row).truthy && !(seen.contains (firstId row))) = true
    · simp only [h, if_true]
      rw [ih (firstId row :: seen)]
      simp
    · simp only [Bool.not_eq_true] at h
      simp only [h, Bool.false_eq_true, if_false]
      exact ih seen

theorem dedupeRows_kept (rows : List Row) : ∀ (seen : List PyVal) (row : Row),
    row ∈ (dedupeRows seen rows).2 →
      (firstId row).truthy = true ∧ firstId row ∉ seen := by
  induction rows with
  | nil => intro seen row h; simp [dedupeRows] at h
  | cons r rest ih =>
    intro seen row h
    simp only [dedupeRows] at h
    by_cases hc : ((firstId r).truthy && !(seen.contains (firstId r))) = true
    · simp only [hc, if_true, List.mem_cons] at h
      rcases h with h | h
      · subst h
        simp only [Bool.and_eq_true, Bool.not_eq_true'] at hc
        refine ⟨hc.1, ?_⟩
        intro hmem
        have : seen.contains (firstId row) = true := by
          simpa using hmem
        rw [hc.2] at this
        exact Bool.false_ne_true this
      · have h2 := ih (firstId r :: seen) row h
        refine ⟨h2.1, fun hmem => h2.2 ?_⟩
        exact List.mem_cons_of_mem _ hmem
    · simp only [Bool.not_eq_true] at hc
      simp only [hc, Bool.false_eq_true, if_false] at h
      exact ih seen row h

theorem dedupeRows_nodup (rows : List Row) : ∀ seen : List PyVal,
    ((dedupeRows seen rows).2.map firstId).Nodup := by
  induction rows with
  | nil => intro seen; simp [dedupeRows]
  | cons r rest ih =>
    intro seen
    simp only [dedupeRows]
    by_cases hc : ((firstId r).truthy && !(seen.contains (firstId r))) = true
    · simp only [hc, if_true, List.map_cons, List.nodup_cons]
      refine ⟨?_, ih (firstId r :: seen)⟩
      intro hmem
      rcases List.mem_map.mp hmem with ⟨row, hrow, hid⟩
      have := (dedupeRows_kept rest (firstId r :: seen) row hrow).2
      apply this
      simp [hid]
    · simp only [Bool.not_eq_true] at hc
      simp only [hc, Bool.false_eq_true, if_false]
      exact ih seen

theorem dedupeRows_append (xs : List Row) : ∀ (ys : List Row) (seen : List PyVal),
    dedupeRows seen (xs ++ ys) =
      ((dedupeRows (dedupeRows seen xs).1 ys).1,
        (dedupeRows seen xs).2 ++ (dedupeRows (dedupeRows seen xs).1 ys).2) := by
  induction xs with
  | nil => intro ys seen; simp [dedupeRows]
  | cons r rest ih =>
    intro ys seen
    simp only [List.cons_append, dedupeRows]
    by_cases hc : ((firstId r).truthy && !(seen.contains (firstId r))) = true
    · simp only [hc, if_true, List.append_eq, ih ys (firstId r :: seen), List.cons_append]
    · simp only [Bool.not_eq_true] at hc
      simp only [hc, Bool.false_eq_true, if_false]
      exact ih ys seen

theorem firstOccurrenceFilter_eq_dedupeRows (rows : List Row) :
    ∀ seen : List PyVal, firstOccurrenceFilter seen rows = (dedupeRows seen rows).2 := by
  induction rows with
  | nil => intro seen; simp [firstOccurrenceFilter, dedupeRows]
  | cons r rest ih =>
    intro seen
    simp only [firstOccurrenceFilter, dedupeRows]
    by_cases hc : ((firstId r).truthy && !(seen.contains (firstId r))) = true
    · simp only [hc, if_true, ih]
    · simp only [Bool.not_eq_true] at hc
      simp only [hc, Bool.false_eq_true, if_false]
      exact ih seen

theorem rowsOf_table (cols : List String) (rows : List Row) :
    (LookupResult.table cols rows).rowsOf = rows := rfl

theorem rowsOf_err (a b : String) (c : Option String) :
    (LookupResult.err a b c).rowsOf = [] := rfl

theorem mergeDedupeAux_map_query (pairs : List (String × LookupResult)) :
    ∀ seen : List PyVal,
      (mergeDedupeAux seen pairs).map Entry.query = pairs.map Prod.fst := by
  induction pairs with
  | nil => intro seen; simp [mergeDedupeAux]
  | cons p rest ih =>
    intro seen
    match hp : p.2 with
    | .table cols rows => simp [mergeDedupeAux, hp, ih]
    | .err a b c => simp [mergeDedupeAux, hp, ih]

theorem mergeDedupeAux_flatRows (pairs : List (String × LookupResult)) :
    ∀ seen : List PyVal,
      flatRows (mergeDedupeAux seen pairs) = (dedupeRows seen (flatRowsP pairs)).2 := by
  induction pairs with
  | nil => intro seen; simp [mergeDedupeAux, flatRows, flatRowsP, dedupeRows]
  | cons p rest ih =>
    intro seen
    match hp : p.2 with
    | .table cols rows =>
      simp only [mergeDedupeAux, hp, flatRows, flatRowsP, List.map_cons,
        List.flatten_cons, rowsOf_table]
      rw [dedupeRows_append]
      have h2 := ih (dedupeRows seen rows).1
      simp only [flatRows, flatRowsP] at h2
      rw [h2]
    | .err a b c =>
      simp only [mergeDedupeAux, hp, flatRows, flatRowsP, List.map_cons,
        List.flatten_cons, rowsOf_err, List.nil_append]
      have h2 := ih seen
      simp only [flatRows, flatRowsP] at h2
      rw [h2]

theorem mergeDedupeAux_truthy (pairs : List (String × LookupResult)) :
    ∀ (seen : List PyVal) (e : Entry), e ∈ mergeDedupeAux seen pairs →
      ∀ row ∈ e.result.rowsOf, (firstId row).truthy = true := by
  induction pairs with
  | nil => intro seen e he; simp [mergeDedupeAux] at he
  | cons p rest ih =>
    intro seen e he row hrow
    match hp : p.2 with
    | .table cols rows =>
      rw [mergeDedupeAux, hp] at he
      rcases List.mem_cons.mp he with he | he
      · subst he
        simp only [LookupResult.rowsOf] at hrow
        exact (dedupeRows_kept rows seen row hrow).1
      · exact ih _ e he row hrow
    | .err a b c =>
      rw [mergeDedupeAux, hp] at he
      rcases List.mem_cons.mp he with he | he
      · subst he; simp [LookupResult.rowsOf] at hrow
      · exact ih _ e he row hrow

/-- Per-pair relation between a (query, result) input pair and the entry
the merge emits for it: the query is preserved, error dicts pass through
unchanged, and tables keep their columns (with a filtered row list). -/
def EntryMatches (p : String × LookupResult) (e : Entry) : Prop :=
  e.query = p.1 ∧
  (∀ a b c, p.2 = .err a b c → e.result = .err a b c) ∧
  (∀ cols rows, p.2 = .table cols rows → ∃ rows', e.result = .table cols rows')

theorem mergeDedupeAux_matches (pairs : List (String × LookupResult)) :
    ∀ seen : List PyVal,
      List.Forall₂ EntryMatches pairs (mergeDedupeAux seen pairs) := by
  induction pairs with
  | nil => intro seen; exact List.Forall₂.nil
  | cons p rest ih =>
    intro seen
    match hp : p.2 with
    | .table cols rows =>
      rw [mergeDedupeAux, hp]
      refine List.Forall₂.cons ?_ (ih _)
      refine ⟨rfl, ?_, ?_⟩
      · intro a b c hcontr; rw [hp] at hcontr; cases hcontr
      · intro cols' rows' htab
        rw [hp] at htab
        cases htab
        exact ⟨(dedupeRows seen rows).2, rfl⟩
    | .err a b c =>
      rw [mergeDedupeAux, hp]
      refine List.Forall₂.cons ?_ (ih _)
      refine ⟨rfl, ?_, ?_⟩
      · intro a' b' c' herr; rw [hp] at herr; cases herr; rfl
      · intro cols' rows' htab; rw [hp] at htab; cases htab

/-! ### Lemmas about the fan-out -/

theorem gather_ok_length {α : Type} (f : String → Except String α)
    (qs : List String) : ∀ rs : List α, gather f qs = .ok rs →
      rs.length = qs.length := by
  induction qs with
  | nil =>
    intro rs h
    simp only [gather] at h
    cases h
    rfl
  | cons q rest ih =>
    intro rs h
    simp only [gather] at h
    match hf : f q with
    | .error m => rw [hf] at h; cases h
    | .ok r =>
      rw [hf] at h
      match hg : gather f rest with
      | .error m => rw [hg] at h; cases h
      | .ok rs' =>
        rw [hg] at h
        have h2 : (Except.ok (r :: rs') : Except String (List α)) = .ok rs := h
        cases h2
        simp [ih rs' hg]

theorem gather_ok_of_forall {α : Type} (f : String → Except String α)
    (g : String → α) (qs : List String) (h : ∀ q ∈ qs, f q = .ok (g q)) :
    gather f qs = .ok (qs.map g) := by
  induction qs with
  | nil => simp [gather]
  | cons q rest ih =>
    have hq : f q = .ok (g q) := h q (List.mem_cons_self q rest)
    have hrest := ih fun q' hq' => h q' (List.mem_cons_of_mem _ hq')
    simp only [gather, hq, hrest, List.map_cons]
    rfl

theorem except_bind_ok {α β : Type} {x : Except String α} {f : α → Except String β}
    {b : β} (h : x >>= f = .ok b) : ∃ a, x = .ok a ∧ f a = .ok b := by
  cases x with
  | error m =>
    have h2 : (Except.error m : Except String β) = .ok b := h
    cases h2
  | ok a => exact ⟨a, rfl, h⟩

theorem fanout_ok_cases (f : String → Except String LookupResult)
    (queries : List String) (dedupe : Bool) (entries : List Entry)
    (h : fanout f queries dedupe = .ok entries) :
    (queries = [] ∧ entries = []) ∨
    ∃ rs, gather f queries = .ok rs ∧
      ((dedupe = true ∧ entries = mergeDedupeAux [] (queries.zip rs)) ∨
       (dedupe = false ∧
         entries = (queries.zip rs).map fun p => { query := p.1, result := p.2 })) := by
  rw [fanout] at h
  by_cases hq : queries.isEmpty
  · rw [if_pos hq] at h
    have h2 : (Except.ok [] : Except String (List Entry)) = .ok entries := h
    cases h2
    exact Or.inl ⟨List.isEmpty_iff.mp hq, rfl⟩
  · rw [if_neg hq] at h
    rcases except_bind_ok h with ⟨rs, hrs, hrest⟩
    refine Or.inr ⟨rs, hrs, ?_⟩
    cases dedupe with
    | true =>
      have h2 : (Except.ok (mergeDedupeAux [] (queries.zip rs)) :
          Except String (List Entry)) = .ok entries := hrest
      cases h2
      exact Or.inl ⟨rfl, rfl⟩
    | false =>
      have h2 : (Except.ok ((queries.zip rs).map fun p =>
          ({ query := p.1, result := p.2 } : Entry)) :
          Except String (List Entry)) = .ok entries := hrest
      cases h2
      exact Or.inr ⟨rfl, rfl⟩

theorem fanout_map_query (f : String → Except String LookupResult)
    (queries : List String) (dedupe : Bool) (entries : List Entry)
    (h : fanout f queries dedupe = .ok entries) :
    entries.map Entry.query = queries := by
  rcases fanout_ok_cases f queries dedupe entries h with ⟨hq, he⟩ | ⟨rs, hrs, hcase⟩
  · rw [hq, he]; rfl
  · have hlen : rs.length = queries.length := gather_ok_length f queries rs hrs
    rcases hcase with ⟨_, he⟩ | ⟨_, he⟩
    · rw [he, mergeDedupeAux_map_query]
      exact List.map_fst_zip queries rs (le_of_eq hlen.symm)
    · rw [he, List.map_map]
      have : (Entry.query ∘ fun p : String × LookupResult =>
          ({ query := p.1, result := p.2 } : Entry)) = Prod.fst := rfl
      rw [this]
      exact List.map_fst_zip queries rs (le_of_eq hlen.symm)

/-- The value `lookup` produces for a term whose HTTP call does not
raise (empty-term short-cut, 200 table, or non-2xx error dict). -/
def lookupResponds (backend : LookupVars → HttpOutcome) (limit : Int)
    (sw : Rat) (q : String) : LookupResult :=
  if q = "" then .table [] []
  else
    match backend (lookupVarsFor q limit sw) with
    | .exn m => .err q m none
    | .resp s body _ =>
      if s = 200 then .table body.meta (pySliceTake body.data (min limit 100))
      else .err q (statusMsg s) none

theorem lookup_fst_eq (backend : LookupVars → HttpOutcome) (limit : Int)
    (sw : Rat) (q : String)
    (hq : httpRaises (backend (lookupVarsFor q limit sw)) = false) :
    (lookup backend q limit sw).1 = .ok (lookupResponds backend limit sw q) := by
  by_cases h0 : q = ""
  · simp [lookup, lookupResponds, h0]
  · simp only [lookup, lookupResponds, if_neg h0]
    match hb : backend (lookupVarsFor q limit sw) with
    | .exn m =>
      rw [hb] at hq
      simp [httpRaises] at hq
    | .resp s body text =>
      by_cases hs : s = 200
      · simp [hs]
      · simp [hs]

theorem fanout_true_truthy (f : String → Except String LookupResult)
    (queries : List String) (entries : List Entry)
    (h : fanout f queries true = .ok entries) :
    ∀ e ∈ entries, ∀ row ∈ e.result.rowsOf, (firstId row).truthy = true := by
  rcases fanout_ok_cases f queries true entries h with ⟨_, he⟩ | ⟨rs, _, hcase⟩
  · subst he; intro e he'; simp at he'
  · rcases hcase with ⟨_, he⟩ | ⟨hc, _⟩
    · subst he
      intro e he' row hrow
      exact mergeDedupeAux_truthy _ _ e he' row hrow
    · cases hc

theorem forall₂_compose {α β γ : Type} {R : α → β → Prop} {S : β → γ → Prop}
    {T : α → γ → Prop} (hT : ∀ a b c, R a b → S b c → T a c) :
    ∀ {l1 : List α} {l2 : List β} {l3 : List γ},
      List.Forall₂ R l1 l2 → List.Forall₂ S l2 l3 → List.Forall₂ T l1 l3 := by
  intro l1 l2 l3 h12 h23
  induction h12 generalizing l3 with
  | nil => cases h23; exact List.Forall₂.nil
  | cons hab h12' ih =>
    cases h23 with
    | cons hbc h23' => exact List.Forall₂.cons (hT _ _ _ hab hbc) (ih h23')

theorem forall₂_zip_map {α β : Type} (g : α → β) (l : List α) :
    List.Forall₂ (fun a (p : α × β) => p = (a, g a)) l (l.zip (l.map g)) := by
  induction l with
  | nil => exact List.Forall₂.nil
  | cons a rest ih => exact List.Forall₂.cons rfl ih

theorem flatRows_map_mk (pairs : List (String × LookupResult)) :
    flatRows (pairs.map fun p => { query := p.1, result := p.2 }) = flatRowsP pairs := by
  rw [flatRows, flatRowsP, List.map_map]
  rfl

theorem pySliceTake_min_length (xs : List Row) (limit : Int) (cap : Nat)
    (hl : 0 ≤ limit) : (pySliceTake xs (min limit cap)).length ≤ cap := by
  have hk0 : 0 ≤ min limit (cap : Int) := le_min hl (by positivity)
  have hkc : min limit (cap : Int) ≤ cap := min_le_right _ _
  rw [pySliceTake, if_pos hk0]
  calc (xs.take (min limit (cap : Int)).toNat).length
      ≤ (min limit (cap : Int)).toNat := by
        rw [List.length_take]; exact Nat.min_le_left _ _
    _ ≤ cap := by omega

/-! ### Lemmas about the extraction helpers -/

theorem extract_comp_ids_eq_firstRanked (entries : List Entry) :
    ∀ ids : List PyVal, extract_comp_ids entries = .ok ids →
      ids = entries.filterMap topId := by
  induction entries with
  | nil =>
    intro ids h
    have h2 : (Except.ok [] : Except String (List PyVal)) = .ok ids := h
    cases h2
    rfl
  | cons item rest ih =>
    intro ids h
    rw [extract_comp_ids] at h
    match hrows : item.result.rowsOf with
    | [] =>
      rw [hrows] at h
      rw [List.filterMap_cons]
      have htop : topId item = none := by simp [topId, hrows]
      rw [htop]
      exact ih ids h
    | [] :: more =>
      rw [hrows] at h
      have h2 : (Except.error "IndexError" : Except String (List PyVal)) = .ok ids := h
      cases h2
    | (x :: xs) :: more =>
      rw [hrows] at h
      rcases except_bind_ok h with ⟨out, hout, hpure⟩
      have h2 : (Except.ok (x :: out) : Except String (List PyVal)) = .ok ids := hpure
      cases h2
      have htop : topId item = some x := by simp [topId, hrows]
      rw [List.filterMap_cons, htop, ih out hout]

theorem extract_title_ids_go_sound (entries : List Entry) :
    ∀ (seen : List PyVal) (ids : List PyVal),
      extract_title_ids_go seen entries = .ok ids →
      ids.Nodup ∧ (∀ x ∈ ids, x ∉ seen) ∧
        (∀ x ∈ ids, ∃ e ∈ entries, topId e = some x) := by
  induction entries with
  | nil =>
    intro seen ids h
    have h2 : (Except.ok [] : Except String (List PyVal)) = .ok ids := h
    cases h2
    exact ⟨List.nodup_nil, by simp, by simp⟩
  | cons item rest ih =>
    intro seen ids h
    rw [extract_title_ids_go] at h
    match hrows : item.result.rowsOf with
    | [] =>
      rw [hrows] at h
      rcases ih seen ids h with ⟨hnd, hdisj, hmem⟩
      refine ⟨hnd, hdisj, ?_⟩
      intro x hx
      rcases hmem x hx with ⟨e, he, htope⟩
      exact ⟨e, List.mem_cons_of_mem _ he, htope⟩
    | [] :: more =>
      rw [hrows] at h
      have h2 : (Except.error "IndexError" : Except String (List PyVal)) = .ok ids := h
      cases h2
    | (x :: xs) :: more =>
      rw [hrows] at h
      have h' : (if seen.contains x then extract_title_ids_go seen rest
          else do
            let out ← extract_title_ids_go (x :: seen) rest
            pure (x :: out)) = Except.ok ids := h
      clear h
      by_cases hseen : seen.contains x = true
      · rw [if_pos hseen] at h'
        rcases ih seen ids h' with ⟨hnd, hdisj, hmem⟩
        refine ⟨hnd, hdisj, ?_⟩
        intro y hy
        rcases hmem y hy with ⟨e, he, htope⟩
        exact ⟨e, List.mem_cons_of_mem _ he, htope⟩
      · rw [if_neg hseen] at h'
        rcases except_bind_ok h' with ⟨out, hout, hpure⟩
        have h2 : (Except.ok (x :: out) : Except String (List PyVal)) = .ok ids := hpure
        cases h2
        rcases ih (x :: seen) out hout with ⟨hnd, hdisj, hmem⟩
        refine ⟨?_, ?_, ?_⟩
        · refine List.nodup_cons.mpr ⟨?_, hnd⟩
          intro hx
          exact hdisj x hx (List.mem_cons_self x seen)
        · intro y hy
          rcases List.mem_cons.mp hy with hy | hy
          · subst hy
            intro hmem'
            apply hseen
            simpa using hmem'
          · intro hmem'
            exact hdisj y hy (List.mem_cons_of_mem _ hmem')
        · intro y hy
          rcases List.mem_cons.mp hy with hy | hy
          · subst hy
            refine ⟨item, List.mem_cons_self item rest, ?_⟩
            simp [topId, hrows]
          · rcases hmem y hy with ⟨e, he, htope⟩
            exact ⟨e, List.mem_cons_of_mem _ he, htope⟩

theorem lookupStep_fields (f : List String → List Entry) (names : List String)
    (setter : List PyVal → ParseResult → ParseResult) (cur : ParseResult)
    (r : ParseResult)
    (h : lookupStep f names setter cur = .ok r)
    (hset : ∀ ids s, (setter ids s).filt_lead_type = s.filt_lead_type ∧
      (setter ids s).filt_emp_title = s.filt_emp_title ∧
      (setter ids s).filt_emp_title_ids = s.filt_emp_title_ids) :
    r.filt_lead_type = cur.filt_lead_type ∧ r.filt_emp_title = cur.filt_emp_title ∧
      r.filt_emp_title_ids = cur.filt_emp_title_ids := by
  rw [lookupStep] at h
  by_cases hn : names.isEmpty
  · rw [if_pos hn] at h
    have h2 : (Except.ok cur : Except String ParseResult) = .ok r := h
    cases h2
    exact ⟨rfl, rfl, rfl⟩
  · rw [if_neg hn] at h
    rcases except_bind_ok h with ⟨ids, _, hpure⟩
    have h2 : (Except.ok (setter ids cur) : Except String ParseResult) = .ok r := hpure
    cases h2
    exact hset ids cur

theorem applyLookups_fields (f : List String → List Entry) (parsed : ParsedJson)
    (base : ParseResult) (r : ParseResult)
    (h : applyLookups f parsed base = .ok r) :
    r.filt_lead_type = base.filt_lead_type ∧ r.filt_emp_title = base.filt_emp_title ∧
      r.filt_emp_title_ids = base.filt_emp_title_ids := by
  rw [applyLookups] at h
  rcases except_bind_ok h with ⟨r1, h1, h⟩
  rcases except_bind_ok h with ⟨r2, h2, h⟩
  rcases except_bind_ok h with ⟨r3, h3, h⟩
  rcases except_bind_ok h with ⟨r4, h4, h5⟩
  have p1 := lookupStep_fields _ _ _ _ _ h1 (fun ids s => ⟨rfl, rfl, rfl⟩)
  have p2 := lookupStep_fields _ _ _ _ _ h2 (fun ids s => ⟨rfl, rfl, rfl⟩)
  have p3 := lookupStep_fields _ _ _ _ _ h3 (fun ids s => ⟨rfl, rfl, rfl⟩)
  have p4 := lookupStep_fields _ _ _ _ _ h4 (fun ids s => ⟨rfl, rfl, rfl⟩)
  have p5 := lookupStep_fields _ _ _ _ _ h5 (fun ids s => ⟨rfl, rfl, rfl⟩)
  refine ⟨?_, ?_, ?_⟩
  · rw [p5.1, p4.1, p3.1, p2.1, p1.1]
  · rw [p5.2.1, p4.2.1, p3.2.1, p2.2.1, p1.2.1]
  · rw [p5.2.2, p4.2.2, p3.2.2, p2.2.2, p1.2.2]

/-! ### Concrete fixtures used by witnesses and counterexamples -/

def demoCols : List String := ["comp_id", "comp_slug", "comp_name", "comp_web", "dist"]

def titleCols : List String :=
  ["title_id", "title_name", "supertitle_id", "function_id", "function_name", "dist"]

/-- A backend where the terms "apple" and "orange" share the top hit 42
and everything else is a 404. -/
def demoBackend : LookupVars → HttpOutcome := fun v =>
  if v.query = "apple" then
    .resp 200 { meta := demoCols
                data := [[.vInt 42, .vStr "apple"], [.vInt 7, .vStr "apple-inc"]] } ""
  else if v.query = "orange" then
    .resp 200 { meta := demoCols
                data := [[.vInt 42, .vStr "orange"], [.vInt 9, .vStr "orange-co"]] } ""
  else .resp 404 { meta := [], data := [] } "not found"

def c1DedupedEntries : List Entry :=
  [{ query := "apple"
     result := .table demoCols [[.vInt 42, .vStr "apple"], [.vInt 7, .vStr "apple-inc"]] },
   { query := "orange", result := .table demoCols [[.vInt 9, .vStr "orange-co"]] }]

def c1PlainEntries : List Entry :=
  [{ query := "apple"
     result := .table demoCols [[.vInt 42, .vStr "apple"], [.vInt 7, .vStr "apple-inc"]] },
   { query := "orange"
     result := .table demoCols [[.vInt 42, .vStr "orange"], [.vInt 9, .vStr "orange-co"]] }]

def c2Entries : List Entry :=
  [{ query := "apple"
     result := .table demoCols [[.vInt 42, .vStr "apple"], [.vInt 7, .vStr "apple-inc"]] },
   { query := "pear", result := .err "pear" (statusMsg 404) none }]

/-- A backend whose response contains a zero primary id and an empty row. -/
def falsyBackend : LookupVars → HttpOutcome := fun _ =>
  .resp 200 { meta := demoCols, data := [[.vInt 0, .vStr "zero"], [], [.vInt 5]] } ""

def demoEmbed : String → EmbedBehavior := fun _ => .returns 1 [1, 2, 3]

def falsyTitleBackend : TitleVars → HttpOutcome := fun _ =>
  .resp 200 { meta := titleCols, data := [[.vInt 0], [.vInt 6]] } ""

/-! ### Claims -/

/-- C1: in the deduplicated output of `lookup_many` (dedupe=True) each
primary id appears at most once; the rows kept across the whole batch
are exactly the first-occurrence filter (in input order, threading one
seen set through every term, duplicates dropped even within a single
term's candidate list) of the rows the same backend run returns without
dedup. -/
theorem lookup_many_dedupe_unique_primary_ids
    (backend : LookupVars → HttpOutcome) (queries : List String) (limit : Int)
    (sw : Rat) (entries entriesAll : List Entry)
    (h : lookup_many backend queries limit sw true = .ok entries)
    (hAll : lookup_many backend queries limit sw false = .ok entriesAll) :
    flatRows entries = firstOccurrenceFilter [] (flatRows entriesAll) ∧
      ((flatRows entries).map firstId).Nodup := by
  rw [lookup_many] at h hAll
  rcases fanout_ok_cases _ _ _ _ h with ⟨hq, he⟩ | ⟨rs, hrs, hcase⟩
  · subst hq
    subst he
    rcases fanout_ok_cases _ _ _ _ hAll with ⟨_, he'⟩ | ⟨rs', hrs', hcase'⟩
    · subst he'
      exact ⟨rfl, List.nodup_nil⟩
    · rcases hcase' with ⟨hc, _⟩ | ⟨_, he'⟩
      · cases hc
      · subst he'
        exact ⟨rfl, List.nodup_nil⟩
  · rcases hcase with ⟨_, he⟩ | ⟨hc, _⟩
    · subst he
      rcases fanout_ok_cases _ _ _ _ hAll with ⟨hq', he'⟩ | ⟨rs', hrs', hcase'⟩
      · subst hq'
        subst he'
        exact ⟨rfl, List.nodup_nil⟩
      · rcases hcase' with ⟨hc', _⟩ | ⟨_, he'⟩
        · cases hc'
        · subst he'
          have hrr : rs = rs' := by
            rw [hrs] at hrs'
            exact Except.ok.inj hrs'
          subst hrr
          constructor
          · rw [mergeDedupeAux_flatRows, flatRows_map_mk,
              firstOccurrenceFilter_eq_dedupeRows]
          · rw [mergeDedupeAux_flatRows]
            exact dedupeRows_nodup _ _
    · cases hc

/-- Witness for C1 on a concrete batch: "apple" and "orange" share the
primary id 42; only apple's copy survives. -/
theorem lookup_many_dedupe_unique_primary_ids_witness :
    flatRows c1DedupedEntries = firstOccurrenceFilter [] (flatRows c1PlainEntries) ∧
      ((flatRows c1DedupedEntries).map firstId).Nodup :=
  lookup_many_dedupe_unique_primary_ids demoBackend ["apple", "orange"] 5 0
    c1DedupedEntries c1PlainEntries (by decide) (by decide)

/-- C2: whenever `lookup_many` returns a batch, the batch has exactly
one entry per input term, labelled by that term, in input order (with
either dedupe setting); completion order of the concurrent calls cannot
influence this because `gather` pairs results positionally. -/
theorem lookup_many_preserves_input_order
    (backend : LookupVars → HttpOutcome) (queries : List String) (limit : Int)
    (sw : Rat) (dedupe : Bool) (entries : List Entry)
    (h : lookup_many backend queries limit sw dedupe = .ok entries) :
    entries.map Entry.query = queries := by
  rw [lookup_many] at h
  exact fanout_map_query _ _ _ _ h

/-- Witness for C2 on a concrete batch including a failing (404) term. -/
theorem lookup_many_preserves_input_order_witness :
    c2Entries.map Entry.query = ["apple", "pear"] :=
  lookup_many_preserves_input_order demoBackend ["apple", "pear"] 5 0 true
    c2Entries (by decide)

/-- C10: in the deduplicating merges of `lookup_many` and
`lookup_title_many`, every row whose first column is falsy (zero, empty
string, None, or the row itself empty) is unconditionally dropped: no
row of any deduped output has a falsy primary id.  (Such rows are also
never added to the seen set: the merge adds an id only when it keeps the
row.) -/
theorem dedupe_drops_falsy_primary_ids
    (backend : LookupVars → HttpOutcome) (embed : String → EmbedBehavior)
    (tb : TitleVars → HttpOutcome) (queries tqueries : List String)
    (limit tlimit : Int) (sw : Rat) (entries tentries : List Entry) :
    (lookup_many backend queries limit sw true = .ok entries →
      ∀ e ∈ entries, ∀ row ∈ e.result.rowsOf, (firstId row).truthy = true) ∧
    (lookup_title_many embed tb tqueries tlimit true = .ok tentries →
      ∀ e ∈ tentries, ∀ row ∈ e.result.rowsOf, (firstId row).truthy = true) := by
  constructor
  · intro h
    rw [lookup_many] at h
    exact fanout_true_truthy _ _ _ h
  · intro h
    rw [lookup_title_many] at h
    exact fanout_true_truthy _ _ _ h

/-- Witness for C10: a backend answering with rows `[0, ...]`, `[]` and
`[5]` (resp. `[0]`, `[6]` for titles) keeps only the truthy-id rows. -/
theorem dedupe_drops_falsy_primary_ids_witness :
    (firstId [PyVal.vInt 5]).truthy = true ∧
      (firstId [PyVal.vInt 6]).truthy = true := by
  constructor
  · exact (dedupe_drops_falsy_primary_ids falsyBackend demoEmbed falsyTitleBackend
      ["a"] ["t"] 10 10 0
      [{ query := "a", result := .table demoCols [[.vInt 5]] }]
      [{ query := "t", result := .table titleCols [[.vInt 6]] }]).1
      (by decide)
      { query := "a", result := .table demoCols [[.vInt 5]] }
      (by decide) [PyVal.vInt 5] (by decide)
  · exact (dedupe_drops_falsy_primary_ids falsyBackend demoEmbed falsyTitleBackend
      ["a"] ["t"] 10 10 0
      [{ query := "a", result := .table demoCols [[.vInt 5]] }]
      [{ query := "t", result := .table titleCols [[.vInt 6]] }]).2
      (by decide)
      { query := "t", result := .table titleCols [[.vInt 6]] }
      (by decide) [PyVal.vInt 6] (by decide)

/-- A backend where the term "alpha" raises (httpx timeout / network
error) and every other term answers 200 with one row. -/
def timeoutBackend : LookupVars → HttpOutcome := fun v =>
  if v.query = "alpha" then .exn "ReadTimeout"
  else .resp 200 { meta := demoCols, data := [[.vInt 1, .vStr "one"]] } ""

/-- C3 counterexample: a timeout on one term does NOT produce an error
entry for that term only — `lookup` has no except-clause around the
httpx call, so the exception propagates through `asyncio.gather` and the
whole batch aborts; the other term's successful result is lost and no
entry list is returned at all. -/
theorem lookup_many_timeout_aborts_batch :
    lookup_many timeoutBackend ["alpha", "beta"] 10 0 true = .error "ReadTimeout" ∧
      ∀ entries : List Entry,
        lookup_many timeoutBackend ["alpha", "beta"] 10 0 true ≠ .ok entries := by
  have h : lookup_many timeoutBackend ["alpha", "beta"] 10 0 true =
      .error "ReadTimeout" := by decide
  refine ⟨h, ?_⟩
  intro entries hcontr
  rw [h] at hcontr
  cases hcontr

/-- C3 amended: failure isolation holds only for non-2xx HTTP responses.
If no term's HTTP call raises, the batch completes with one entry per
term in input order; a term whose response has a non-200 status gets
exactly the error dict naming that term, and a term with a 200 response
(or the empty-term short-cut) still yields its table — a timeout or
network error instead aborts the whole batch (see the counterexample). -/
theorem lookup_many_non2xx_error_isolated
    (backend : LookupVars → HttpOutcome) (queries : List String) (limit : Int)
    (sw : Rat)
    (hx : ∀ q ∈ queries, httpRaises (backend (lookupVarsFor q limit sw)) = false) :
    ∃ entries, lookup_many backend queries limit sw true = .ok entries ∧
      entries.map Entry.query = queries ∧
      List.Forall₂ (fun q (e : Entry) =>
        (∀ s body text, q ≠ "" →
          backend (lookupVarsFor q limit sw) = .resp s body text → s ≠ 200 →
          e.result = .err q (statusMsg s) none) ∧
        (∀ body text, backend (lookupVarsFor q limit sw) = .resp 200 body text →
          ∃ cols rows, e.result = .table cols rows)) queries entries := by
  by_cases hqe : queries.isEmpty
  · have hq : queries = [] := List.isEmpty_iff.mp hqe
    subst hq
    exact ⟨[], rfl, rfl, List.Forall₂.nil⟩
  · have hgather : gather (fun q => (lookup backend q limit sw).1) queries =
        .ok (queries.map (lookupResponds backend limit sw)) :=
      gather_ok_of_forall _ _ queries
        (fun q hq => lookup_fst_eq backend limit sw q (hx q hq))
    refine ⟨mergeDedupeAux []
      (queries.zip (queries.map (lookupResponds backend limit sw))), ?_, ?_, ?_⟩
    · rw [lookup_many, fanout, if_neg hqe, hgather]
      rfl
    · rw [mergeDedupeAux_map_query]
      exact List.map_fst_zip queries _
        (le_of_eq (List.length_map queries (lookupResponds backend limit sw)).symm)
    · refine forall₂_compose ?_
        (forall₂_zip_map (lookupResponds backend limit sw) queries)
        (mergeDedupeAux_matches _ [])
      intro q p e hp hm
      subst hp
      obtain ⟨_, herr, htab⟩ := hm
      constructor
      · intro s body text hq0 hb hs
        apply herr
        show lookupResponds backend limit sw q = .err q (statusMsg s) none
        rw [lookupResponds, if_neg hq0, hb]
        simp [hs]
      · intro body text hb
        by_cases hq0 : q = ""
        · have hgq : lookupResponds backend limit sw q = .table [] [] := by
            rw [lookupResponds, if_pos hq0]
          rcases htab _ _ hgq with ⟨rows', hrows'⟩
          exact ⟨[], rows', hrows'⟩
        · have hgq : lookupResponds backend limit sw q =
              .table body.meta (pySliceTake body.data (min limit 100)) := by
            rw [lookupResponds, if_neg hq0, hb]
            simp
          rcases htab _ _ hgq with ⟨rows', hrows'⟩
          exact ⟨body.meta, rows', hrows'⟩

/-- Witness for the amended C3: a batch mixing a 200 term and a 404 term
(no exceptions) completes with isolated error entries. -/
theorem lookup_many_non2xx_error_isolated_witness :
    ∃ entries, lookup_many demoBackend ["apple", "pear"] 5 0 true = .ok entries ∧
      entries.map Entry.query = ["apple", "pear"] ∧
      List.Forall₂ (fun q (e : Entry) =>
        (∀ s body text, q ≠ "" →
          demoBackend (lookupVarsFor q 5 0) = .resp s body text → s ≠ 200 →
          e.result = .err q (statusMsg s) none) ∧
        (∀ body text, demoBackend (lookupVarsFor q 5 0) = .resp 200 body text →
          ∃ cols rows, e.result = .table cols rows)) ["apple", "pear"] entries :=
  lookup_many_non2xx_error_isolated demoBackend ["apple", "pear"] 5 0 (by decide)

/-- C7: when the completion output is not valid JSON, `parse_query`
returns exactly the error dict carrying the raw completion output, after
a single completion call, independently of the supplied lookup
functions — so no lookup, disambiguation or title-resolution step runs
and no partial intent is produced. -/
theorem parse_query_invalid_json_is_terminal (raw : String)
    (f g : Option (List String → List Entry)) :
    parse_query (.notJson raw) f g =
      (.errorResult ("Failed to parse LLM response") raw, 1) := rfl

/-- The `parsed` JSON of the C4 scenario: one competitor name. -/
def c4Parsed : ParsedJson :=
  { industry_summary := some "supermarket chains"
    competitor_names := some ["Mercadona"] }

/-- A lookup function returning two candidates for every term. -/
def twoCandidateLookup : List String → List Entry := fun qs =>
  qs.map fun q =>
    { query := q
      result := .table demoCols
        [[.vInt 101, .vStr "mercadona"], [.vInt 202, .vStr "mercadona-sa"]] }

/-- The competitor id list of a successful `parse_query` outcome. -/
def pqCompetitorIds : PQOut × Nat → Option (List PyVal)
  | (.ok r, _) => some r.competitor_parsed_list
  | (.errorResult _ _, _) => none
  | (.raised _, _) => none

/-- C4 counterexample: on a term with two candidates, `parse_query`
performs exactly one completion call in total (the extraction call) —
no validation-prompt call ever happens, because `_extract_comp_ids`
unconditionally takes the first-ranked row and `VALIDATION_PROMPT` has
no uses — and the chosen id is the first-ranked candidate's id. -/
theorem parse_query_two_candidates_no_validation_call :
    (parse_query (.json c4Parsed) (some twoCandidateLookup) none).2 = 1 ∧
      pqCompetitorIds (parse_query (.json c4Parsed) (some twoCandidateLookup) none) =
        some [PyVal.vInt 101] := by
  constructor
  · rfl
  · decide

/-- C4 amended: resolution of looked-up names never invokes the
CompletionProvider (every `parse_query` run makes exactly one completion
call, the extraction), and for every term the chosen id is the
first-ranked candidate's first column whenever any candidate row exists
(never null); terms without candidates are skipped. -/
theorem parse_query_resolution_takes_first_ranked (llm : CompletionOutcome)
    (f g : Option (List String → List Entry)) :
    (parse_query llm f g).2 = 1 ∧
    ∀ (entries : List Entry) (ids : List PyVal),
      extract_comp_ids entries = .ok ids → ids = entries.filterMap topId := by
  constructor
  · match llm with
    | .notJson raw => rfl
    | .json parsed =>
      simp only [parse_query]
      cases hc : parse_query_core parsed f g with
      | ok r => rfl
      | error m => rfl
  · exact fun entries ids h => extract_comp_ids_eq_firstRanked entries ids h

/-- Witness for the amended C4 at the two-candidate scenario. -/
theorem parse_query_resolution_takes_first_ranked_witness :
    [PyVal.vInt 101] = (twoCandidateLookup ["Mercadona"]).filterMap topId :=
  (parse_query_resolution_takes_first_ranked (.json c4Parsed)
    (some twoCandidateLookup) none).2
    (twoCandidateLookup ["Mercadona"]) [PyVal.vInt 101] (by decide)

/-- C9: when the parsed intent requests employee leads, has title terms
and a title-lookup function is supplied, a successful `parse_query`
attaches exactly the ids computed by `_extract_title_ids` (top match per
title term), and that list has no duplicate title id — first occurrence
in term order wins. -/
theorem parse_query_attaches_deduped_title_ids (parsed : ParsedJson)
    (f : Option (List String → List Entry))
    (tf : List String → List Entry) (r : ParseResult) (n : Nat)
    (h : parse_query (.json parsed) f (some tf) = (.ok r, n))
    (hlead : (parsed.filt_lead_type.getD []).contains "employee" = true)
    (htitles : (parsed.filt_emp_title.getD []).isEmpty = false) :
    ∃ ids, r.filt_emp_title_ids = some ids ∧
      extract_title_ids (tf (parsed.filt_emp_title.getD [])) = .ok ids ∧
      ids.Nodup ∧
      ∀ x ∈ ids, ∃ e ∈ tf (parsed.filt_emp_title.getD []), topId e = some x := by
  have hcore : parse_query_core parsed f (some tf) = .ok r := by
    simp only [parse_query] at h
    cases hc : parse_query_core parsed f (some tf) with
    | ok r' =>
      rw [hc] at h
      have h4 : ((PQOut.ok r' : PQOut), (1 : Nat)) = (.ok r, n) := h
      rw [Prod.mk.injEq] at h4
      have h3 := PQOut.ok.inj h4.1
      rw [h3]
    | error m =>
      rw [hc] at h
      have h4 : ((PQOut.raised m : PQOut), (1 : Nat)) = (.ok r, n) := h
      rw [Prod.mk.injEq] at h4
      exact PQOut.noConfusion h4.1
  simp only [parse_query_core] at hcore
  rcases except_bind_ok hcore with ⟨res, hres, htl⟩
  have hflds : res.filt_lead_type = parsed.filt_lead_type ∧
      res.filt_emp_title = parsed.filt_emp_title := by
    cases f with
    | none =>
      have h2 : copyNames parsed (buildBase parsed) = res := Except.ok.inj hres
      rw [← h2]
      exact ⟨rfl, rfl⟩
    | some fl =>
      have h3 := applyLookups_fields fl parsed (buildBase parsed) res hres
      exact ⟨h3.1, h3.2.1⟩
  simp only [applyTitleLookups] at htl
  have hcond : ((res.filt_lead_type.getD []).contains "employee" &&
      !(res.filt_emp_title.getD []).isEmpty) = true := by
    rw [hflds.1, hflds.2, hlead, htitles]
    rfl
  rw [if_pos hcond] at htl
  rcases except_bind_ok htl with ⟨ids, hids, hpure⟩
  have h2 : ({ res with filt_emp_title_ids := some ids } : ParseResult) = r :=
    Except.ok.inj hpure
  rw [hflds.2] at hids
  rw [extract_title_ids] at hids
  obtain ⟨hnd, _, hmem⟩ :=
    extract_title_ids_go_sound (tf (parsed.filt_emp_title.getD [])) [] ids hids
  refine ⟨ids, ?_, ?_, hnd, hmem⟩
  · rw [← h2]
  · rw [extract_title_ids]
    exact hids

/-- The parsed intent of the C9 witness scenario. -/
def c9Parsed : ParsedJson :=
  { industry_summary := some "retail"
    filt_lead_type := some ["employee"]
    filt_emp_title := some ["ceo", "cfo"] }

/-- A title lookup whose two terms share the top title id 11. -/
def c9TitleLookup : List String → List Entry := fun qs =>
  qs.map fun q =>
    { query := q
      result := .table titleCols
        (if q = "ceo" then [[.vInt 11], [.vInt 12]] else [[.vInt 11], [.vInt 13]]) }

/-- The result `parse_query` produces in the C9 witness scenario. -/
def c9Result : ParseResult :=
  { industry_summary := "retail"
    filt_lead_type := some ["employee"]
    filt_emp_title := some ["ceo", "cfo"]
    competitor_names := some []
    suggested_companies := some []
    explicit_comp_names_curr := some []
    explicit_comp_names_past := some []
    explicit_comp_names_any := some []
    filt_emp_title_ids := some [.vInt 11] }

/-- Witness for C9: both title terms resolve to top id 11; it is
attached once. -/
theorem parse_query_attaches_deduped_title_ids_witness :
    ∃ ids, c9Result.filt_emp_title_ids = some ids ∧
      extract_title_ids (c9TitleLookup (c9Parsed.filt_emp_title.getD [])) = .ok ids ∧
      ids.Nodup ∧
      ∀ x ∈ ids, ∃ e ∈ c9TitleLookup (c9Parsed.filt_emp_title.getD []),
        topId e = some x :=
  parse_query_attaches_deduped_title_ids c9Parsed none c9TitleLookup c9Result 1
    (by decide) (by decide) (by decide)

/-! ### C5: limit clamping -/

theorem lookup_rows_bounded (backend : LookupVars → HttpOutcome) (q : String)
    (limit : Int) (sw : Rat) (hl : 0 ≤ limit) :
    rowCountL (lookup backend q limit sw).1 ≤ 100 := by
  by_cases h0 : q = ""
  · simp [lookup, h0, rowCountL]
  · simp only [lookup, if_neg h0]
    split
    · exact Nat.zero_le 100
    · split
      · exact pySliceTake_min_length _ limit 100 hl
      · exact Nat.zero_le 100

theorem lookup_requests_clamped (backend : LookupVars → HttpOutcome)
    (q : String) (limit : Int) (sw : Rat) :
    ∀ v ∈ (lookup backend q limit sw).2, v.limit = min limit 100 := by
  intro v hv
  by_cases h0 : q = ""
  · simp [lookup, h0] at hv
  · simp only [lookup, if_neg h0] at hv
    split at hv <;> try split at hv
    all_goals simp at hv
    all_goals (subst hv; rfl)

theorem lookup_title_rows_bounded (embed : String → EmbedBehavior)
    (tb : TitleVars → HttpOutcome) (q : String) (limit : Int) (hl : 0 ≤ limit) :
    rowCountL (lookup_title embed tb q limit).1 ≤ 100 := by
  by_cases h0 : q = ""
  · simp [lookup_title, h0, rowCountL]
  · simp only [lookup_title, if_neg h0]
    split
    · exact Nat.zero_le 100
    · exact Nat.zero_le 100
    · split
      · exact Nat.zero_le 100
      · split
        · exact pySliceTake_min_length _ limit 100 hl
        · exact Nat.zero_le 100

theorem lookup_title_requests_clamped (embed : String → EmbedBehavior)
    (tb : TitleVars → HttpOutcome) (q : String) (limit : Int) :
    ∀ v ∈ (lookup_title embed tb q limit).2, v.limit = min limit 100 := by
  intro v hv
  by_cases h0 : q = ""
  · simp [lookup_title, h0] at hv
  · simp only [lookup_title, if_neg h0] at hv
    split at hv <;> try split at hv
    all_goals try split at hv
    all_goals simp at hv
    all_goals (subst hv; rfl)

theorem lookalike_from_ids_rows_bounded (ib : LookalikeIdsVars → HttpOutcome)
    (ids : List Int) (hc : Option Int) (cc2 : Option (List String)) (sw : Rat)
    (limit : Int) (hl : 0 ≤ limit) :
    rowCountI (lookalike_from_ids ib ids hc cc2 sw limit).1 ≤ 1000 := by
  by_cases h0 : ids.isEmpty
  · simp [lookalike_from_ids, h0, rowCountI]
  · simp only [lookalike_from_ids, if_neg h0]
    split
    · exact Nat.zero_le 1000
    · split
      · exact pySliceTake_min_length _ limit 1000 hl
      · exact Nat.zero_le 1000

theorem lookalike_from_ids_requests_clamped (ib : LookalikeIdsVars → HttpOutcome)
    (ids : List Int) (hc : Option Int) (cc2 : Option (List String)) (sw : Rat)
    (limit : Int) :
    ∀ v ∈ (lookalike_from_ids ib ids hc cc2 sw limit).2, v.limit = min limit 1000 := by
  intro v hv
  by_cases h0 : ids.isEmpty
  · simp [lookalike_from_ids, h0] at hv
  · simp only [lookalike_from_ids, if_neg h0] at hv
    split at hv <;> try split at hv
    all_goals simp at hv
    all_goals (subst hv; rfl)

theorem lookalike_from_term_rows_bounded (embed : String → EmbedBehavior)
    (mb : LookalikeTermVars → HttpOutcome) (q : String) (sw : Rat)
    (limit : Int) (hl : 0 ≤ limit) :
    rowCountT (lookalike_from_term embed mb q sw limit).1 ≤ 1000 := by
  by_cases h0 : q = ""
  · simp [lookalike_from_term, h0, rowCountT]
  · simp only [lookalike_from_term, if_neg h0]
    split
    · exact Nat.zero_le 1000
    · exact Nat.zero_le 1000
    · split
      · exact Nat.zero_le 1000
      · split
        · exact pySliceTake_min_length _ limit 1000 hl
        · exact Nat.zero_le 1000

theorem lookalike_from_term_requests_clamped (embed : String → EmbedBehavior)
    (mb : LookalikeTermVars → HttpOutcome) (q : String) (sw : Rat) (limit : Int) :
    ∀ v ∈ (lookalike_from_term embed mb q sw limit).2, v.limit = min limit 1000 := by
  intro v hv
  by_cases h0 : q = ""
  · simp [lookalike_from_term, h0] at hv
  · simp only [lookalike_from_term, if_neg h0] at hv
    split at hv <;> try split at hv
    all_goals try split at hv
    all_goals simp at hv
    all_goals (subst hv; rfl)

/-- A backend returning 150 rows regardless of the requested limit. -/
def overflowBackend : LookupVars → HttpOutcome := fun _ =>
  .resp 200 { meta := demoCols, data := List.replicate 150 [.vInt 1] } ""

/-- C5 counterexample: the row cap fails for a negative caller-supplied
limit.  With `limit = -1` the slice `rows[:min(-1, 100)] = rows[:-1]`
merely drops the last backend row, so a 150-row response yields 149
rows — more than the claimed 100-row maximum for lexical lookup. -/
theorem lookup_negative_limit_exceeds_cap :
    rowCountL (lookup overflowBackend "acme" (-1) 0).1 = 149 ∧
      ¬ rowCountL (lookup overflowBackend "acme" (-1) 0).1 ≤ 100 := by
  constructor
  · decide
  · decide

/-- C5 amended: for every non-negative caller-supplied limit, lexical
lookup and title lookup return at most 100 rows and both lookalike
searches at most 1000, whatever the backend answers; and every request
sent carries the clamped value min(limit, 100) resp. min(limit, 1000)
in its query variables.  (For negative limits the row cap can be
exceeded — see the counterexample.) -/
theorem limits_clamped_for_nonneg_limit (limit : Int) (hl : 0 ≤ limit)
    (backend : LookupVars → HttpOutcome) (tb : TitleVars → HttpOutcome)
    (ib : LookalikeIdsVars → HttpOutcome) (mb : LookalikeTermVars → HttpOutcome)
    (embed : String → EmbedBehavior) (q : String) (ids : List Int)
    (hc : Option Int) (cc2 : Option (List String)) (sw : Rat) :
    (rowCountL (lookup backend q limit sw).1 ≤ 100 ∧
      ∀ v ∈ (lookup backend q limit sw).2, v.limit = min limit 100) ∧
    (rowCountL (lookup_title embed tb q limit).1 ≤ 100 ∧
      ∀ v ∈ (lookup_title embed tb q limit).2, v.limit = min limit 100) ∧
    (rowCountI (lookalike_from_ids ib ids hc cc2 sw limit).1 ≤ 1000 ∧
      ∀ v ∈ (lookalike_from_ids ib ids hc cc2 sw limit).2, v.limit = min limit 1000) ∧
    (rowCountT (lookalike_from_term embed mb q sw limit).1 ≤ 1000 ∧
      ∀ v ∈ (lookalike_from_term embed mb q sw limit).2, v.limit = min limit 1000) :=
  ⟨⟨lookup_rows_bounded backend q limit sw hl,
      lookup_requests_clamped backend q limit sw⟩,
    ⟨lookup_title_rows_bounded embed tb q limit hl,
      lookup_title_requests_clamped embed tb q limit⟩,
    ⟨lookalike_from_ids_rows_bounded ib ids hc cc2 sw limit hl,
      lookalike_from_ids_requests_clamped ib ids hc cc2 sw limit⟩,
    ⟨lookalike_from_term_rows_bounded embed mb q sw limit hl,
      lookalike_from_term_requests_clamped embed mb q sw limit⟩⟩

def demoIdsBackend : LookalikeIdsVars → HttpOutcome := fun _ =>
  .resp 200 { meta := demoCols, data := [[.vInt 3, .vStr "three"]] } ""

def demoTermBackend : LookalikeTermVars → HttpOutcome := fun _ =>
  .resp 200 { meta := demoCols, data := [[.vInt 4, .vStr "four"]] } ""

/-- Witness for the amended C5 at limit 7. -/
theorem limits_clamped_for_nonneg_limit_witness :
    (rowCountL (lookup demoBackend "apple" 7 0).1 ≤ 100 ∧
      ∀ v ∈ (lookup demoBackend "apple" 7 0).2, v.limit = min 7 100) ∧
    (rowCountL (lookup_title demoEmbed falsyTitleBackend "apple" 7).1 ≤ 100 ∧
      ∀ v ∈ (lookup_title demoEmbed falsyTitleBackend "apple" 7).2,
        v.limit = min 7 100) ∧
    (rowCountI (lookalike_from_ids demoIdsBackend [1, 2] none none 0 7).1 ≤ 1000 ∧
      ∀ v ∈ (lookalike_from_ids demoIdsBackend [1, 2] none none 0 7).2,
        v.limit = min 7 1000) ∧
    (rowCountT (lookalike_from_term demoEmbed demoTermBackend "apple" 0 7).1 ≤ 1000 ∧
      ∀ v ∈ (lookalike_from_term demoEmbed demoTermBackend "apple" 0 7).2,
        v.limit = min 7 1000) :=
  limits_clamped_for_nonneg_limit 7 (by decide) demoBackend falsyTitleBackend
    demoIdsBackend demoTermBackend demoEmbed "apple" [1, 2] none none 0

/-! ### C6: embedding failures -/

/-- C6: both vector-search entry points bound the embedding step with the
120-second `asyncio.wait_for`; when the embedding exceeds that bound, or
raises any exception, they return a structured error dict (with an
`error` field and a `detail`) instead of raising — `lookalike_from_term`
returns `\x7b'query','error','detail'\x7d` and `lookup_title` the
analogous dict. -/
theorem embed_failures_return_structured_errors
    (embed : String → EmbedBehavior) (mb : LookalikeTermVars → HttpOutcome)
    (tb : TitleVars → HttpOutcome) (q : String) (sw : Rat) (limit tlimit : Int)
    (hq : q ≠ "") :
    (∀ d vec, embed q = .returns d vec → 120 < d →
      (lookalike_from_term embed mb q sw limit).1 =
        .ok (.failure q ("Embedding timeout")
          ("Embedding generation timed out after 120 seconds"))) ∧
    (∀ m, embed q = .raises m →
      (lookalike_from_term embed mb q sw limit).1 =
        .ok (.failure q ("Embedding failed") (m.take 500))) ∧
    (∀ d vec, embed q = .returns d vec → 120 < d →
      (lookup_title embed tb q tlimit).1 =
        .ok (.err q ("Embedding timeout")
          (some ("Embedding generation timed out after 120 seconds")))) ∧
    (∀ m, embed q = .raises m →
      (lookup_title embed tb q tlimit).1 =
        .ok (.err q ("Embedding failed") (some (m.take 500)))) := by
  refine ⟨?_, ?_, ?_, ?_⟩
  · intro d vec he hd
    simp only [lookalike_from_term, if_neg hq, he, awaitWithTimeout]
    rw [if_neg (not_le.mpr hd)]
  · intro m he
    simp only [lookalike_from_term, if_neg hq, he, awaitWithTimeout]
  · intro d vec he hd
    simp only [lookup_title, if_neg hq, he, awaitWithTimeout]
    rw [if_neg (not_le.mpr hd)]
  · intro m he
    simp only [lookup_title, if_neg hq, he, awaitWithTimeout]

/-- An embedding provider that takes 200 seconds. -/
def slowEmbed : String → EmbedBehavior := fun _ => .returns 200 [1]

/-- An embedding provider that raises. -/
def failEmbed : String → EmbedBehavior := fun _ => .raises "boom"

/-- Witness for C6: a 200-second embedding on `lookalike_from_term` and a
raising embedding on `lookup_title`. -/
theorem embed_failures_return_structured_errors_witness :
    (lookalike_from_term slowEmbed demoTermBackend "acme" 0 10).1 =
      .ok (.failure "acme" ("Embedding timeout")
        ("Embedding generation timed out after 120 seconds")) ∧
    (lookup_title failEmbed falsyTitleBackend "acme" 10).1 =
      .ok (.err "acme" ("Embedding failed") (some (String.take "boom" 500))) := by
  constructor
  · exact (embed_failures_return_structured_errors slowEmbed demoTermBackend
      falsyTitleBackend "acme" 0 10 10 (by decide)).1 200 [1] rfl (by norm_num)
  · exact (embed_failures_return_structured_errors failEmbed demoTermBackend
      falsyTitleBackend "acme" 0 10 10 (by decide)).2.2.2 "boom" rfl

/-! ### C8: explicit filter defaults -/

/-- C8: whenever `lookalike_from_ids` contacts the backend (i.e. the id
list is non-empty; for an empty id list no request is sent at all), it
sends exactly one request whose query variables always carry both
filter keys: `filter_hc` is 0 when the caller passed None, and
`filter_cc2` is the empty list when the caller passed None or an empty
list — the `LookalikeIdsVars` record makes omitting either key
impossible. -/
theorem lookalike_from_ids_sends_filter_defaults
    (ib : LookalikeIdsVars → HttpOutcome) (company_ids : List Int)
    (filter_hc : Option Int) (filter_cc2 : Option (List String)) (sw : Rat)
    (limit : Int) (hne : company_ids.isEmpty = false) :
    ∃ qv, (lookalike_from_ids ib company_ids filter_hc filter_cc2 sw limit).2 =
        [qv] ∧
      qv.filter_hc = filter_hc.getD 0 ∧
      qv.filter_cc2 = filter_cc2.getD [] ∧
      qv.company_ids = company_ids ∧
      qv.limit = min limit 1000 := by
  have hne' : ¬ company_ids.isEmpty = true := by
    rw [hne]
    exact Bool.false_ne_true
  refine ⟨lookalikeIdsVarsFor company_ids filter_hc filter_cc2 sw limit,
    ?_, ?_, ?_, rfl, rfl⟩
  · simp only [lookalike_from_ids, if_neg hne']
    split
    · rfl
    · split
      · rfl
      · rfl
  · cases filter_hc <;> rfl
  · cases filter_cc2 with
    | none => rfl
    | some l => cases l with
      | nil => rfl
      | cons a t => rfl

/-- Witness for C8 with None headcount filter and an explicitly empty
country list. -/
theorem lookalike_from_ids_sends_filter_defaults_witness :
    ∃ qv, (lookalike_from_ids demoIdsBackend [5] none (some []) 0 7).2 = [qv] ∧
      qv.filter_hc = Option.getD none 0 ∧
      qv.filter_cc2 = Option.getD (some []) [] ∧
      qv.company_ids = [5] ∧
      qv.limit = min 7 1000 :=
  lookalike_from_ids_sends_filter_defaults demoIdsBackend [5] none (some []) 0 7
    (by decide)

end CompanyProspect
